import Mathlib

/-!
Verification of the x86kernel virtual-memory, scheduling and locking
subsystems.  This file is a shallow embedding of the relevant C sources
(`kern/vm/frame.c`, `kern/vm/page.c`, `kern/syscall/paging.c`,
`kern/syscall/lifecycle.c`, `kern/syscall/management.c`,
`kern/lock/mutex.c`, `kern/lock/rwlock.c`, `kern/prog/thrlist.c`,
`kern/prog/thread.c`, `kern/prog/process.c`), followed by theorems about
the embedded operations.  Machine words are modelled as `Nat` with the
same masking the 32-bit source performs; fallible C functions return the
same small negative `Int` codes as `kern/inc/errors.h`.
-/

namespace X86K

/-! ## Constants from `kern/inc/page.h`, `kern/inc/page_types.h` and the
platform headers -/

def PAGE_SIZE : Nat := 4096

def PAGE_TABLE_ENTRIES : Nat := 1024

/-- Boundary between direct-mapped kernel memory and user memory
(`USER_MEM_START` from the platform header `common_kern.h`: 16 MB). -/
def USER_MEM_START : Nat := 0x1000000

def ADDR_MASK : Nat := 0xFFFFF000

def FLAGS_MASK : Nat := 0xFFF

/-- All bits of a 32-bit word; used to model the C `~` operator on
`uint32_t` values. -/
def UINT32_MASK : Nat := 0xFFFFFFFF

/-! Page-table-entry flags (`kern/inc/page_types.h`). -/

def PTE_PRESENT : Nat := 1 <<< 0

def PTE_READWRITE : Nat := 1 <<< 1

def PTE_USER : Nat := 1 <<< 2

def PTE_GLOBAL : Nat := 1 <<< 8

def PTE_ZEROPAGE : Nat := 1 <<< 9

def PTE_COPYONWRITE : Nat := 1 <<< 10

/-! Error codes (`kern/inc/errors.h`). -/

def ERR_ARG_NULL : Int := -2

def ERR_NEGATIVE_SLEEP : Int := -8

def ERR_MALLOC_FAIL : Int := -12

def ERR_NO_CHILDREN : Int := -23

def ERR_NO_ORIGINAL_THREAD : Int := -25

def ERR_CHILDREN_GONE : Int := -26

def ERR_WAIT_FULL : Int := -28

def ERR_NO_FRAMES : Int := -30

def ERR_KERNEL_FRAME : Int := -33

def ERR_INVALID_ARG : Int := -34

def ERR_FREE_OWNERLESS_FRAME : Int := -35

def ERR_TOO_MANY_FRAME_OWNERS : Int := -36

def ERR_PAGE_ALREADY_PRESENT : Int := -37

def ERR_PAGE_NOT_PRESENT : Int := -40

def ERR_WORN_OUT_NEW_PAGES : Int := -41

/-! ## Page-table-entry operations (the `PE_*` and frame macros of
`kern/inc/page.h`) -/

def PE_SETFLAG (pe flag : Nat) : Nat := pe ||| flag

/-- In the source this is `pe & ~flag` on `uint32_t`; complementing a
32-bit word is xor with the all-ones word. -/
def PE_UNSETFLAG (pe flag : Nat) : Nat := pe &&& (UINT32_MASK ^^^ flag)

def PE_GETFLAG (pe flag : Nat) : Bool := ((pe &&& FLAGS_MASK) &&& flag) != 0

def PE_SETADDR (pe addr : Nat) : Nat := (addr &&& ADDR_MASK) ||| (pe &&& FLAGS_MASK)

def PE_GETADDR (pe : Nat) : Nat := pe &&& ADDR_MASK

def PAGE_ADDR (va : Nat) : Nat := va &&& ADDR_MASK

def FRAME_ID (pa : Nat) : Int :=
  if pa < USER_MEM_START then -1
  else (((pa - USER_MEM_START) >>> 12 : Nat) : Int)

def FRAME_ADDR (id : Nat) : Nat := (id <<< 12) + USER_MEM_START

/-! ## Frame allocator state (`kern/vm/frame.c`)

The frame table is the byte array `frames` (one reference count per user
frame, saturating at 255 by an explicit check) plus the scalar hint
`next_available_frame` (-1 when no frame is free). -/

structure FA where
  frames : List Nat
  next_available_frame : Int
deriving Repr, DecidableEq

/-- Scan of `_get_frame`'s hint-update loop: starting at index `start`,
walk `frames.length` slots cyclically and return the first index holding
count 0, or -1 when every frame is taken. -/
def findFreeFrame (frames : List Nat) (start : Nat) : Int :=
  match (List.range frames.length).find?
      (fun i => frames.getD ((start + i) % frames.length) 0 == 0) with
  | some i => (((start + i) % frames.length : Nat) : Int)
  | none => -1

/-- Embedding of `_get_frame` (frame.c, lines 150-181): increment the
reference count of `frame` unless the frame is misaligned, in the kernel
range, or its count is saturated at 255; when the acquired frame was the
hint, rescan for a new hint. -/
def _get_frame (s : FA) (frame : Nat) : Int × FA :=
  if frame % PAGE_SIZE != 0 then (-1, s)
  else if FRAME_ID frame = -1 then (ERR_KERNEL_FRAME, s)
  else
    let id : Nat := (FRAME_ID frame).toNat
    if s.frames.getD id 0 = 255 then (ERR_TOO_MANY_FRAME_OWNERS, s)
    else
      let frames1 := s.frames.set id (s.frames.getD id 0 + 1)
      if (id : Int) = s.next_available_frame then
        (0, { frames := frames1, next_available_frame := findFreeFrame frames1 id })
      else
        (0, { s with frames := frames1 })

/-- Embedding of `_allocate_frame` (frame.c, lines 81-93): hand out the
hinted frame, or `none` when the hint is -1.  A `_get_frame` failure on
the hinted frame is a kernel panic in the source; it is folded into
`none` here and excluded by the hint invariant in the theorems below. -/
def _allocate_frame (s : FA) : Option (Nat × FA) :=
  if s.next_available_frame = -1 then none
  else
    let frame := FRAME_ADDR s.next_available_frame.toNat
    let r := _get_frame s frame
    if r.1 = 0 then some (frame, r.2) else none

/-- Embedding of `free_frame` (frame.c, lines 107-134): decrement the
count of `frame`; when the count reaches 0 and the hint was -1, the freed
frame becomes the new hint. -/
def free_frame (s : FA) (frame : Nat) : Int × FA :=
  if frame % PAGE_SIZE != 0 then (-1, s)
  else if FRAME_ID frame = -1 then (ERR_KERNEL_FRAME, s)
  else
    let id : Nat := (FRAME_ID frame).toNat
    if s.frames.getD id 0 = 0 then (ERR_FREE_OWNERLESS_FRAME, s)
    else
      let frames1 := s.frames.set id (s.frames.getD id 0 - 1)
      if frames1.getD id 0 == 0 && s.next_available_frame == -1 then
        (0, { frames := frames1, next_available_frame := (id : Int) })
      else
        (0, { s with frames := frames1 })

inductive ThrState where
  | RUNNING
  | SLEEPING
  | BLOCKED
  | WAITING
  | ZOMBIE
deriving Repr, DecidableEq

structure Thr where
  tid : Nat
  state : ThrState
  wake : Nat
deriving Repr, DecidableEq

/-- Tail-to-head walk of `thrlist_add_sorted` (thrlist.c, lines 105-136)
on the reversed list: skip entries with a strictly later wake time, then
insert. -/
def addSortedRev (t : Thr) : List Thr → List Thr
  | [] => [t]
  | c :: rest => if c.wake > t.wake then c :: addSortedRev t rest else t :: c :: rest

/-- Embedding of `thrlist_add_sorted`: the source iterates from the tail
while the current thread has a strictly later wake time and inserts just
after the stopping point (at the head when the walk exhausts the list). -/
def thrlist_add_sorted (t : Thr) (l : List Thr) : List Thr :=
  (addSortedRev t l.reverse).reverse

/-- Embedding of `thrlist_remove` (thrlist.c, lines 171-194): unlink the
given thread from the list it is in. -/
def thrlist_remove (t : Thr) (l : List Thr) : List Thr := l.erase t

/-- Sleep-queue ordering invariant: wake times are non-decreasing from
head to tail. -/
def sortedByWake (l : List Thr) : Prop := l.Chain' (fun a b => a.wake ≤ b.wake)

/-- Wake-time computation of `set_sleeping` (thread.c, lines 180-196):
the unsigned 32-bit sum of the current tick count and the sleep
duration. -/
def set_sleeping_wake (time sleep : Nat) : Nat := (time + sleep) % 2 ^ 32

instance : IsTrans Thr fun a b => a.wake ≤ b.wake := ⟨fun _ _ _ => Nat.le_trans⟩

def ERR_SELF_NULL : Int := -6

/-- Scheduler-visible state for the sleep path: the run queue (head is
the current thread), the sleep queue, and the tick counter. -/
structure Sched where
  running : List Thr
  sleeping : List Thr
  time : Nat
deriving Repr, DecidableEq

/-- Embedding of `set_sleeping` (thread.c, lines 180-196) applied to the
current thread: remove it from the run queue, stamp its wake time with
current ticks plus the duration, mark it SLEEPING and insert it into the
sleep queue in sorted position.  An empty run queue makes `get_self`
panic in the source (`none` here). -/
def sched_set_sleeping (s : Sched) (sleep : Nat) : Option Sched :=
  match s.running with
  | [] => none
  | self :: rest =>
    let self1 := { self with state := ThrState.SLEEPING,
                             wake := set_sleeping_wake s.time sleep }
    some { s with running := rest, sleeping := thrlist_add_sorted self1 s.sleeping }

/-- Embedding of `_sleep` (management.c, lines 171-194).  The context
switch after a successful enqueue is not part of the returned state. -/
def _sleep (s : Sched) (ticks : Int) : Int × Sched :=
  if ticks = 0 then (0, s)
  else if ticks < 0 then (ERR_NEGATIVE_SLEEP, s)
  else
    match sched_set_sleeping s ticks.toNat with
    | none => (ERR_SELF_NULL, s)
    | some s1 => (0, s1)

/-- Embedding of `waitlist_addLast` (mutex.c, lines 212-224): append the
thread at the tail. -/
def waitlist_addLast (l : List Thr) (thr : Thr) : List Thr := l ++ [thr]

/-- Embedding of `waitlist_removeHead` (mutex.c, lines 229-241): pop and
return the head. -/
def waitlist_removeHead : List Thr → Option Thr × List Thr
  | [] => (none, [])
  | next :: rest => (some next, rest)

/-- Embedding of the owner-selection loop of `mutex_unlock` (mutex.c,
lines 196-198): pop heads with `waitlist_removeHead` until the popped
waiter is Running or the list is exhausted; skipped stale entries are
discarded. -/
def mutex_unlock_select : List Thr → Option Thr × List Thr
  | [] => (none, [])
  | next :: rest =>
    if next.state = ThrState.RUNNING then (some next, rest)
    else mutex_unlock_select rest

structure RwState where
  writer_in : Bool
  readers_in : Nat
  writers_waiting : Nat
  readers_waiting : Nat
deriving Repr, DecidableEq

/-- Loop condition of the reader branch of `rwlock_lock` (rwlock.c, line
62). -/
def readerWaitCond (s : RwState) : Bool := s.writer_in || decide (0 < s.writers_waiting)

/-- Condition of the writer branch of `rwlock_lock` (rwlock.c, line
75). -/
def writerWaitCond (s : RwState) : Bool := s.writer_in || decide (0 < s.readers_in)

/-- Embedding of the reader branch of `rwlock_lock` (rwlock.c, lines
60-72): a `while` loop; each iteration increments `readers_waiting`,
waits (the next observed state comes from the observation list),
decrements `readers_waiting` and re-checks.  `none` when the
observations run out while still waiting. -/
def rwlock_lock_read : RwState → List RwState → Option RwState
  | s, [] =>
    if readerWaitCond s then none
    else some { s with readers_in := s.readers_in + 1 }
  | s, o :: rest =>
    if readerWaitCond s then
      rwlock_lock_read { o with readers_waiting := o.readers_waiting - 1 } rest
    else some { s with readers_in := s.readers_in + 1 }

/-- Embedding of the writer branch of `rwlock_lock` (rwlock.c, lines
73-82): an `if`, not a loop — the writer waits at most once and then
sets `writer_in` without re-checking.  The result pairs the state
observed at the moment of acquisition with the final state. -/
def rwlock_lock_write (s : RwState) (obs : List RwState) : Option (RwState × RwState) :=
  if writerWaitCond s then
    match obs with
    | [] => none
    | o :: _ =>
      let w := { o with writers_waiting := o.writers_waiting - 1 }
      some (w, { w with writer_in := true })
  else some (s, { s with writer_in := true })

inductive PrState where
  | RUNNING
  | EXITED
  | BURIED
deriving Repr, DecidableEq

structure Child where
  pstate : PrState
  exit_status : Int
  original_tid : Int
deriving Repr, DecidableEq

structure Task where
  children : List Child
  waitingSize : Nat
deriving Repr, DecidableEq

/-- Embedding of `exited_child` (process.c, lines 163-174): youngest-first
scan for a child in EXITED state; the child counter is the length of the
sibling chain. -/
def exited_child (t : Task) : Option Child :=
  if t.children.length = 0 then none
  else t.children.find? fun c => c.pstate == PrState.EXITED

/-- Result of `_wait`: an error (carrying the exit status already stored
through the status pointer, if any), a descheduling of the caller, or a
reap carrying the returned tid, the stored status and the caller's
updated state. -/
inductive WaitRes where
  | err (code : Int) (written : Option Int)
  | blocks
  | reaped (tid : Int) (written : Option Int) (t : Task)
deriving Repr, DecidableEq

/-- Embedding of `_wait` (lifecycle.c, lines 318-362) on a snapshot of
the caller's process.  The blocking loop is entered at most through its
first condition check here (`blocks`); `destroy_process` (process.c,
lines 254-285) succeeds on the EXITED child and unlinks it from the
sibling chain. -/
def _wait (t : Task) (has_status_ptr : Bool) : WaitRes :=
  if t.children.length = 0 then .err ERR_NO_CHILDREN none
  else if t.children.length ≤ t.waitingSize then .err ERR_WAIT_FULL none
  else
    match exited_child t with
    | none => .blocks
    | some child =>
      if t.children.length = 0 then .err ERR_CHILDREN_GONE none
      else
        let written := if has_status_ptr then some child.exit_status else none
        if child.original_tid = -1 then .err ERR_NO_ORIGINAL_THREAD written
        else .reaped child.original_tid written
          { t with children := t.children.eraseP fun c => c.pstate == PrState.EXITED }

/-! ## Page-table engine (`kern/vm/page.c`, `kern/syscall/paging.c`)

The per-process paging state is flattened: `pagemap` holds the present
user page-table entries keyed by page-aligned virtual address (an absent
key is a zero, non-present entry; the source's distinct
directory-not-present and page-not-present error paths collapse into
one).  Page tables and other kernel-heap allocations are modelled as
always succeeding.  `memregions` is the page-sized `(base | page_count)`
table of `new_pages` regions with its cursor
`next_memregion_idx`. -/

/-- Address of the shared blank frame (`zero_frame` in page.c), a
page-aligned kernel-heap page; the concrete value is arbitrary within
the direct-mapped kernel range. -/
def zero_frame : Nat := 0x200000

inductive MemType where
  | TEXT
  | RODATA
  | DATA
  | BSS
  | HEAP
  | STACK
  | USER
deriving Repr, DecidableEq

/-- Result of `_allocate_frame` (frame.c, lines 81-93): NULL when the
hint is -1, a kernel panic when `_get_frame` fails on the hinted frame,
else the frame.  (This replaces the earlier Option view; the `panicked`
case is unreachable under the hint invariant.) -/
inductive ARes where
  | ok (frame : Nat) (fa : FA)
  | nofr
  | panicked
deriving Repr, DecidableEq

/-- Embedding of `_allocate_frame` distinguishing its NULL return from
its kernel panic. -/
def allocate_frame_r (s : FA) : ARes :=
  if s.next_available_frame = -1 then ARes.nofr
  else
    let frame := FRAME_ADDR s.next_available_frame.toNat
    let r := _get_frame s frame
    if r.1 = 0 then ARes.ok frame r.2 else ARes.panicked

structure Kernel where
  fa : FA
  pagemap : List (Nat × Nat)
  memregions : List Nat
  next_memregion_idx : Int
deriving Repr, DecidableEq

/-- Result of a paging operation: success, an error code (both carrying
the state), or a kernel panic. -/
inductive CRes where
  | ok (k : Kernel)
  | err (code : Int) (k : Kernel)
  | panicked
deriving Repr, DecidableEq

def ERR_DIRECTORY_NOT_PRESENT : Int := -38

def ERR_KERNEL_PAGE : Int := -39

/-- Entry-construction half of `create_page` (page.c, lines 256-329):
the page-table presence check (with the rollback `free_frame` of a
pre-allocated frame on `PageAlreadyPresent`, which panics when there is
no frame to free, i.e. on the Bss and reference-frame paths), then the
entry built from 0: Present and User, then the Bss / reference-frame /
fresh-frame alternatives, then ReadWrite for the writable kinds. -/
def create_page_entry (k : Kernel) (va : Nat) (ty : MemType)
    (ref_frame new_frame : Option Nat) : CRes :=
  match k.pagemap.lookup va with
  | some _ =>
    match new_frame with
    | none => CRes.panicked
    | some f =>
      let r := free_frame k.fa f
      if r.1 != 0 then CRes.panicked
      else CRes.err ERR_PAGE_ALREADY_PRESENT { k with fa := r.2 }
  | none =>
    let pte1 := PE_SETFLAG (PE_SETFLAG 0 PTE_PRESENT) PTE_USER
    let pte2 :=
      if ty = MemType.BSS then PE_SETADDR (PE_SETFLAG pte1 PTE_ZEROPAGE) zero_frame
      else
        match ref_frame with
        | some r => PE_SETADDR (PE_SETFLAG pte1 PTE_COPYONWRITE) r
        | none => PE_SETADDR pte1 (new_frame.getD 0)
    let pte3 :=
      match ty with
      | MemType.TEXT | MemType.RODATA => pte2
      | _ => PE_SETFLAG pte2 PTE_READWRITE
    CRes.ok { k with pagemap := (va, pte3) :: k.pagemap }

/-- Embedding of `create_page` (page.c, lines 238-330): argument checks,
the fresh-frame pre-allocation for non-Bss kinds without a reference
frame, then the entry construction. -/
def create_page (k : Kernel) (va : Nat) (ty : MemType) (ref_frame : Option Nat) : CRes :=
  if va % PAGE_SIZE != 0 then CRes.err ERR_INVALID_ARG k
  else if va < USER_MEM_START then CRes.err ERR_INVALID_ARG k
  else if (match ref_frame with
           | some r => r % PAGE_SIZE != 0 || decide (r < USER_MEM_START)
           | none => false) then CRes.err ERR_INVALID_ARG k
  else if ty ≠ MemType.BSS ∧ ref_frame = none then
    match allocate_frame_r k.fa with
    | ARes.nofr => CRes.err ERR_NO_FRAMES k
    | ARes.panicked => CRes.panicked
    | ARes.ok f fa1 => create_page_entry { k with fa := fa1 } va ty ref_frame (some f)
  else create_page_entry k va ty ref_frame none

/-- Entry built by the fresh-frame path of `create_page` for a writable
kind: Present, User, the frame address, ReadWrite. -/
def mkPte (f : Nat) : Nat :=
  PE_SETFLAG (PE_SETADDR (PE_SETFLAG (PE_SETFLAG 0 PTE_PRESENT) PTE_USER) f) PTE_READWRITE

/-- Embedding of `destroy_page` (page.c, lines 339-361): unmap the page
and release its frame; a `free_frame` failure is a kernel panic. -/
def destroy_page (k : Kernel) (va : Nat) : CRes :=
  if va % PAGE_SIZE != 0 then CRes.err ERR_INVALID_ARG k
  else
    match k.pagemap.lookup va with
    | none => CRes.err ERR_DIRECTORY_NOT_PRESENT k
    | some pte =>
      if !PE_GETFLAG pte PTE_PRESENT then CRes.err ERR_PAGE_NOT_PRESENT k
      else if PE_GETFLAG pte PTE_GLOBAL then CRes.err ERR_KERNEL_PAGE k
      else if !PE_GETFLAG pte PTE_USER then CRes.err ERR_KERNEL_PAGE k
      else
        let frame := PE_GETADDR pte
        let k1 := { k with pagemap := k.pagemap.eraseP (fun p => p.1 == va) }
        let r := free_frame k1.fa frame
        if r.1 != 0 then CRes.panicked
        else CRes.ok { k1 with fa := r.2 }

/-- Hint invariant of the frame allocator: `next_available_frame` is -1
or indexes a frame with reference count 0. -/
def hintInv (fa : FA) : Prop :=
  fa.next_available_frame = -1 ∨
  (0 ≤ fa.next_available_frame ∧
   fa.next_available_frame.toNat < fa.frames.length ∧
   fa.frames.getD fa.next_available_frame.toNat 0 = 0)

/-- Cursor invariant of the memregion table: `next_memregion_idx` is -1
or indexes a free (zero) slot. -/
def memregionCursorInv (k : Kernel) : Prop :=
  k.next_memregion_idx = -1 ∨
  (0 ≤ k.next_memregion_idx ∧
   k.next_memregion_idx.toNat < PAGE_TABLE_ENTRIES ∧
   k.memregions.getD k.next_memregion_idx.toNat 0 = 0)

/-- Outcome of the page-creation loop of `_new_pages` (paging.c, lines
48-60): all pages created, or a failure after `created` pages (which the
caller rolls back), or a kernel panic. -/
inductive NPLoop where
  | ok (k : Kernel)
  | fail (code : Int) (k : Kernel) (created : Nat)
  | panicked
deriving Repr, DecidableEq

/-- Page-creation loop of `_new_pages`: page `i` is at
`base + i * PAGE_SIZE` in 32-bit arithmetic. -/
def np_create_loop (base : Nat) : Kernel → Nat → Nat → NPLoop
  | k, _, 0 => NPLoop.ok k
  | k, i, n + 1 =>
    match create_page k ((base + i * PAGE_SIZE) % 2 ^ 32) MemType.USER none with
    | CRes.ok k1 => np_create_loop base k1 (i + 1) n
    | CRes.err e k1 => NPLoop.fail e k1 i
    | CRes.panicked => NPLoop.panicked

/-- Page-destruction loop shared by the rollback of `_new_pages` (lines
52-57) and by `_remove_pages` (lines 117-120); in both, a `destroy_page`
error is a kernel panic. -/
def np_destroy_loop (base : Nat) : Kernel → Nat → Nat → Option Kernel
  | k, _, 0 => some k
  | k, i, n + 1 =>
    match destroy_page k ((base + i * PAGE_SIZE) % 2 ^ 32) with
    | CRes.ok k1 => np_destroy_loop base k1 (i + 1) n
    | _ => none

/-- Cursor-advance scan of `_new_pages` (paging.c, lines 70-82): walk
the 1023 other slots from `idx + 1` cyclically; the first free slot
becomes the cursor, -1 when the table is full. -/
def memregionScan (mem : List Nat) (idx : Nat) : Int :=
  match (List.range (PAGE_TABLE_ENTRIES - 1)).find?
      (fun j => mem.getD ((idx + 1 + j) % PAGE_TABLE_ENTRIES) 0 == 0) with
  | some j => (((idx + 1 + j) % PAGE_TABLE_ENTRIES : Nat) : Int)
  | none => -1

/-- Result of `_new_pages`/`_remove_pages`: a return code with the
resulting state, or a kernel panic. -/
inductive PRes where
  | ret (code : Int) (k : Kernel)
  | panicked
deriving Repr, DecidableEq

/-- Embedding of `_new_pages` (paging.c, lines 31-85): argument and
cursor checks, the creation loop with rollback, the `base | page_count`
entry written at the cursor, and the cursor advance.  The `memset` of
the fresh region only touches page contents, which this state does not
carry. -/
def _new_pages (k : Kernel) (base : Nat) (len : Int) : PRes :=
  if base % PAGE_SIZE != 0 then PRes.ret ERR_INVALID_ARG k
  else if len < 0 ∨ len % PAGE_SIZE ≠ 0 ∨ len > 0xfff * PAGE_SIZE then
    PRes.ret ERR_INVALID_ARG k
  else if k.next_memregion_idx = -1 then PRes.ret ERR_WORN_OUT_NEW_PAGES k
  else
    let num_pages := (len / PAGE_SIZE).toNat
    match np_create_loop base k 0 num_pages with
    | NPLoop.panicked => PRes.panicked
    | NPLoop.fail e kf i =>
      match np_destroy_loop base kf 0 i with
      | some kr => PRes.ret e kr
      | none => PRes.panicked
    | NPLoop.ok k1 =>
      let idx := k.next_memregion_idx.toNat
      let entry := base ||| num_pages
      let mem1 := k1.memregions.set idx entry
      let nextid := memregionScan mem1 idx
      PRes.ret 0 { k1 with memregions := mem1, next_memregion_idx := nextid }

/-- Embedding of `_remove_pages` (paging.c, lines 94-129): find the
first memregion entry whose base matches, read its page count (a zero
count — including the no-match case — is the not-found error -2),
destroy the pages, clear the slot, and revive a -1 cursor. -/
def _remove_pages (k : Kernel) (base : Nat) : PRes :=
  if base % PAGE_SIZE != 0 then PRes.ret (-1) k
  else
    match (List.range PAGE_TABLE_ENTRIES).find?
        (fun i => k.memregions.getD i 0 &&& ADDR_MASK == base) with
    | none => PRes.ret (-2) k
    | some reg_idx =>
      let num_pages := k.memregions.getD reg_idx 0 &&& FLAGS_MASK
      if num_pages = 0 then PRes.ret (-2) k
      else
        match np_destroy_loop base k 0 num_pages with
        | none => PRes.panicked
        | some k1 =>
          let mem1 := k1.memregions.set reg_idx 0
          let idx1 := if k1.next_memregion_idx = -1 then (reg_idx : Int)
                      else k1.next_memregion_idx
          PRes.ret 0 { k1 with memregions := mem1, next_memregion_idx := idx1 }

/-- Bindings added to the page map by the creation loop of `_new_pages`
starting at page index `i`, one per allocated frame id. -/
def buildBinds (base : Nat) : Nat → List Nat → List (Nat × Nat)
  | _, [] => []
  | i, f :: fs =>
    ((base + i * PAGE_SIZE) % 2 ^ 32, mkPte (FRAME_ADDR f)) :: buildBinds base (i + 1) fs

/-- A pristine small kernel state: two free frames, no user pages, an
empty memregion table with the cursor at slot 0. -/
def K0 : Kernel :=
  { fa := FA.mk [0, 0] 0
    pagemap := []
    memregions := List.replicate PAGE_TABLE_ENTRIES 0
    next_memregion_idx := 0 }

/-- Cursor after a `new_pages`/`remove_pages` round trip that succeeds
in both calls; `none` when either call does not return 0. -/
def roundTripCursor (k : Kernel) (base : Nat) (len : Int) : Option Int :=
  match _new_pages k base len with
  | PRes.ret 0 k1 =>
    match _remove_pages k1 base with
    | PRes.ret 0 k2 => some k2.next_memregion_idx
    | _ => none
  | _ => none

/-! ## Copy-on-write (`kern/vm/frame.c` `copy_on_write`,
`kern/vm/page.c` `_page_fault_handler`)

State for the fault path on one page: the frame table, the abstract
per-frame page contents, and the faulting page's page-table entry. -/

structure VMC where
  fa : FA
  contents : List Nat
  pte : Nat
deriving Repr, DecidableEq

/-- Result of `copy_on_write`: a return code with the state, or a
kernel panic (non-existing page, or allocator panic). -/
inductive VRes where
  | ret (code : Int) (s : VMC)
  | panicked
deriving Repr, DecidableEq

/-- Embedding of `copy_on_write` (frame.c, lines 199-244).  Reads of the
faulting page go through the current mapping, i.e. the frame the entry
points at; the copy passes through the kernel's `cow_buffer` scratch
page: save the old frame's contents, retarget the entry to the new
frame, write the contents back (now into the new frame), and decrement
the old frame's count. -/
def copy_on_write (s : VMC) (page_addr : Nat) : VRes :=
  if page_addr % PAGE_SIZE != 0 then VRes.ret (-1) s
  else
    let old_frame := PE_GETADDR s.pte
    let old_id := (FRAME_ID old_frame).toNat
    if s.fa.frames.getD old_id 0 = 1 then VRes.ret 0 s
    else if s.fa.frames.getD old_id 0 = 0 then VRes.ret ERR_FREE_OWNERLESS_FRAME s
    else
      match allocate_frame_r s.fa with
      | ARes.nofr => VRes.ret ERR_NO_FRAMES s
      | ARes.panicked => VRes.panicked
      | ARes.ok new_frame fa1 =>
        let buffer := s.contents.getD old_id 0
        let pte1 := PE_SETADDR s.pte new_frame
        let new_id := (FRAME_ID new_frame).toNat
        let contents1 := s.contents.set new_id buffer
        let fa2 := { fa1 with frames := fa1.frames.set old_id (fa1.frames.getD old_id 0 - 1) }
        VRes.ret 0 (VMC.mk fa2 contents1 pte1)

/-- Entry update of the CopyOnWrite branch of `_page_fault_handler`
(page.c, lines 395-396): clear the COW flag, set ReadWrite. -/
def cow_pte (pte : Nat) : Nat :=
  PE_SETFLAG (PE_UNSETFLAG pte PTE_COPYONWRITE) PTE_READWRITE

/-- Embedding of the CopyOnWrite branch of `_page_fault_handler`
(page.c, lines 394-398): clear the COW flag, set ReadWrite, then invoke
`copy_on_write` on the faulting page. -/
def page_fault_cow (s : VMC) (addr : Nat) : VRes :=
  copy_on_write (VMC.mk s.fa s.contents (cow_pte s.pte)) (PAGE_ADDR addr)

/-! ## Theorems -/

/-- Claim C7. -/
theorem get_frame_saturated_or_kernel (s : FA) (frame : Nat)
    (halign : frame % PAGE_SIZE = 0) :
    (FRAME_ID frame ≠ -1 →
      s.frames.getD (FRAME_ID frame).toNat 0 = 255 →
      _get_frame s frame = (ERR_TOO_MANY_FRAME_OWNERS, s)) ∧
    (FRAME_ID frame = -1 →
      _get_frame s frame = (ERR_KERNEL_FRAME, s)) := by
  constructor
  · intro hid hsat
    rw [List.getD_eq_getElem?_getD] at hsat
    simp [_get_frame, halign, hid, hsat, List.getD_eq_getElem?_getD]
  · intro hid
    simp [_get_frame, halign, hid]

theorem get_frame_saturated_or_kernel_witness :
    ((FRAME_ID USER_MEM_START ≠ -1 ∧
        (FA.mk [255] 0).frames.getD (FRAME_ID USER_MEM_START).toNat 0 = 255 ∧
        _get_frame (FA.mk [255] 0) USER_MEM_START =
          (ERR_TOO_MANY_FRAME_OWNERS, FA.mk [255] 0)) ∧
      (FRAME_ID 0 = -1 ∧ _get_frame (FA.mk [255] 0) 0 = (ERR_KERNEL_FRAME, FA.mk [255] 0))) := by
  refine ⟨⟨by decide, by decide, ?_⟩, ⟨by decide, ?_⟩⟩
  · exact (get_frame_saturated_or_kernel (FA.mk [255] 0) USER_MEM_START (by decide)).1
      (by decide) (by decide)
  · exact (get_frame_saturated_or_kernel (FA.mk [255] 0) 0 (by decide)).2 (by decide)

/-! ## Thread records and scheduler lists (`kern/inc/thread.h`,
`kern/prog/thrlist.c`, `kern/prog/thread.c`)

A thread is in exactly one intrusive list; the lists are modelled as
Lean lists of thread records, ordered head to tail. -/

theorem addSortedRev_head (t : Thr) (l : List Thr) :
    ∀ y ∈ (addSortedRev t l).head?, y = t ∨ l.head? = some y := by
  match l with
  | [] => intro y hy; simp [addSortedRev] at hy; simp [hy]
  | c :: rest =>
    intro y hy
    by_cases h : c.wake > t.wake
    · simp [addSortedRev, h] at hy
      simp [hy]
    · simp [addSortedRev, h] at hy
      simp [hy]

theorem addSortedRev_chain (t : Thr) (l : List Thr)
    (h : l.Chain' fun a b => b.wake ≤ a.wake) :
    (addSortedRev t l).Chain' fun a b => b.wake ≤ a.wake := by
  induction l with
  | nil => simp [addSortedRev]
  | cons c rest ih =>
    rw [List.chain'_cons'] at h
    by_cases hc : c.wake > t.wake
    · rw [addSortedRev, if_pos hc, List.chain'_cons']
      refine ⟨?_, ih h.2⟩
      intro y hy
      rcases addSortedRev_head t rest y hy with rfl | hmem
      · exact Nat.le_of_lt hc
      · exact h.1 y hmem
    · rw [addSortedRev, if_neg hc, List.chain'_cons']
      refine ⟨?_, h.2.cons' h.1⟩
      intro y hy
      simp at hy
      subst hy
      omega

/-- Claim C8: inserting a thread put to sleep by `set_sleeping` (its wake
time being current ticks plus the sleep duration) with
`thrlist_add_sorted` keeps the sleep queue sorted non-decreasing by wake
time, and removing a thread preserves the order. -/
theorem sleep_queue_sorted_preserved (l : List Thr) (t : Thr) (time sleep : Nat)
    (hw : t.wake = set_sleeping_wake time sleep)
    (hs : sortedByWake l) :
    sortedByWake (thrlist_add_sorted t l) ∧
    (∀ (u : Thr) (m : List Thr), sortedByWake m → sortedByWake (thrlist_remove u m)) := by
  constructor
  · have hrev : l.reverse.Chain' fun a b => b.wake ≤ a.wake := by
      rw [List.chain'_reverse]
      exact hs.imp fun a b hab => hab
    have hins := addSortedRev_chain t l.reverse hrev
    unfold sortedByWake thrlist_add_sorted
    exact List.chain'_reverse.mpr (hins.imp fun a b hab => hab)
  · intro u m hm
    exact List.Chain'.sublist hm (List.erase_sublist u m)

theorem sleep_queue_sorted_preserved_witness :
    sortedByWake (thrlist_add_sorted (Thr.mk 3 ThrState.SLEEPING (set_sleeping_wake 5 7))
      [Thr.mk 1 ThrState.SLEEPING 4, Thr.mk 2 ThrState.SLEEPING 20]) ∧
    (∀ (u : Thr) (m : List Thr), sortedByWake m → sortedByWake (thrlist_remove u m)) := by
  have h := sleep_queue_sorted_preserved
    [Thr.mk 1 ThrState.SLEEPING 4, Thr.mk 2 ThrState.SLEEPING 20]
    (Thr.mk 3 ThrState.SLEEPING (set_sleeping_wake 5 7)) 5 7 rfl
    (by unfold sortedByWake; simp)
  exact h

/-! ## Sleep system call (`kern/syscall/management.c`, `_sleep`) -/

/-- Claim C9: sleep(0) returns 0 immediately with the whole scheduler
state (in particular the sleep queue) unchanged, and sleep of a negative
duration returns NegativeSleep, also leaving the state unchanged. -/
theorem sleep_zero_and_negative (s : Sched) :
    _sleep s 0 = (0, s) ∧
    (∀ t : Int, t < 0 → _sleep s t = (ERR_NEGATIVE_SLEEP, s)) := by
  constructor
  · simp [_sleep]
  · intro t ht
    have hne : t ≠ 0 := by omega
    simp [_sleep, hne, ht]

theorem sleep_zero_and_negative_witness :
    _sleep (Sched.mk [] [] 0) 0 = (0, Sched.mk [] [] 0) ∧
    _sleep (Sched.mk [] [] 0) (-3) = (ERR_NEGATIVE_SLEEP, Sched.mk [] [] 0) := by
  refine ⟨(sleep_zero_and_negative (Sched.mk [] [] 0)).1, ?_⟩
  exact (sleep_zero_and_negative (Sched.mk [] [] 0)).2 (-3) (by norm_num)

/-! ## Mutex wait list (`kern/lock/mutex.c`)

The wait list is the singly-linked `first_waiting`/`last_waiting` chain,
modelled head to tail. -/

theorem foldl_waitlist_addLast (ws acc : List Thr) :
    ws.foldl waitlist_addLast acc = acc ++ ws := by
  induction ws generalizing acc with
  | nil => simp
  | cons w ws ih => simp [waitlist_addLast, ih]

/-- Claim C5: waiters enqueued with `waitlist_addLast` appear in the
list in enqueue order, and `mutex_unlock` hands the mutex to the
earliest-enqueued waiter whose state is Running, discarding the stale
entries it skipped. -/
theorem mutex_unlock_fifo :
    (∀ ws : List Thr, ws.foldl waitlist_addLast [] = ws) ∧
    (∀ (l₁ l₂ : List Thr) (t : Thr),
      (∀ u ∈ l₁, u.state ≠ ThrState.RUNNING) →
      t.state = ThrState.RUNNING →
      mutex_unlock_select (l₁ ++ t :: l₂) = (some t, l₂)) := by
  constructor
  · intro ws
    simpa using foldl_waitlist_addLast ws []
  · intro l₁ l₂ t hstale ht
    induction l₁ with
    | nil =>
      simp only [List.nil_append, mutex_unlock_select]
      rw [if_pos ht]
    | cons u us ih =>
      have hu : u.state ≠ ThrState.RUNNING := hstale u (by simp)
      simp only [List.cons_append, mutex_unlock_select]
      rw [if_neg hu]
      exact ih fun v hv => hstale v (by simp [hv])

theorem mutex_unlock_fifo_witness :
    [Thr.mk 1 ThrState.BLOCKED 0, Thr.mk 2 ThrState.RUNNING 0].foldl waitlist_addLast [] =
      [Thr.mk 1 ThrState.BLOCKED 0, Thr.mk 2 ThrState.RUNNING 0] ∧
    mutex_unlock_select
        ([Thr.mk 1 ThrState.BLOCKED 0] ++ Thr.mk 2 ThrState.RUNNING 0 :: [Thr.mk 3 ThrState.RUNNING 0]) =
      (some (Thr.mk 2 ThrState.RUNNING 0), [Thr.mk 3 ThrState.RUNNING 0]) := by
  refine ⟨mutex_unlock_fifo.1 _, ?_⟩
  exact mutex_unlock_fifo.2 [Thr.mk 1 ThrState.BLOCKED 0] [Thr.mk 3 ThrState.RUNNING 0]
    (Thr.mk 2 ThrState.RUNNING 0) (by intro u hu; simp at hu; simp [hu]) rfl

/-! ## Reader/writer lock (`kern/lock/rwlock.c`)

The lock's scalar fields; the inner mutex and the condition variables
are represented by the observation lists below: every `cond_wait` hands
control to the other threads, and the state observed when the waiter
wakes (holding the inner mutex again) is the next list element. -/

/-- Counterexample to claim C4: a writer that found the lock busy is
woken in a state in which `writer_in` is still set (exactly what the
writer-to-writer handoff in `rwlock_unlock` produces, which signals
`no_threads_in` while leaving `writer_in` true); the code neither
re-checks `writer_in || readers_in > 0` nor waits again — it acquires,
so the claim that the writer re-checks the condition whenever woken and
never proceeds while it holds is false. -/
theorem rwlock_writer_no_recheck_counterexample :
    rwlock_lock_write (RwState.mk true 0 0 0) [RwState.mk true 0 0 0] =
      some (RwState.mk true 0 0 0, RwState.mk true 0 0 0) ∧
    writerWaitCond (RwState.mk true 0 0 0) = true := by
  constructor
  · rfl
  · rfl

/-- Claim C4, amended: a reader acquires only after observing, on entry
or on a wakeup of its re-checked `while` loop, a state with no writer in
and no writer waiting; a writer checks `writer_in || readers_in > 0`
once — when the lock is free it acquires immediately, otherwise it
waits a single time on `no_threads_in` and then sets `writer_in` without
re-checking, relying on the unlock-side handoff. -/
theorem rwlock_wait_conditions_amended :
    (∀ (s : RwState) (obs : List RwState) (s1 : RwState),
      rwlock_lock_read s obs = some s1 →
      ∃ o : RwState, readerWaitCond o = false ∧
        s1 = { o with readers_in := o.readers_in + 1 }) ∧
    (∀ (s : RwState) (obs : List RwState),
      writerWaitCond s = false →
      rwlock_lock_write s obs = some (s, { s with writer_in := true })) ∧
    (∀ (s o : RwState) (rest : List RwState),
      writerWaitCond s = true →
      rwlock_lock_write s (o :: rest) =
        some ({ o with writers_waiting := o.writers_waiting - 1 },
          { o with writers_waiting := o.writers_waiting - 1, writer_in := true })) := by
  refine ⟨?_, ?_, ?_⟩
  · intro s obs
    induction obs generalizing s with
    | nil =>
      intro s1 h
      rw [rwlock_lock_read] at h
      by_cases hc : readerWaitCond s
      · simp [hc] at h
      · simp [hc] at h
        exact ⟨s, by simpa [hc] using h.symm⟩
    | cons o rest ih =>
      intro s1 h
      rw [rwlock_lock_read] at h
      by_cases hc : readerWaitCond s
      · rw [if_pos hc] at h
        exact ih _ _ h
      · rw [if_neg hc] at h
        exact ⟨s, by simp [hc], by simpa using h.symm⟩
  · intro s obs h
    simp [rwlock_lock_write, h]
  · intro s o rest h
    simp [rwlock_lock_write, h]

theorem rwlock_wait_conditions_amended_witness :
    (∃ o : RwState, readerWaitCond o = false ∧
      (RwState.mk false 1 0 0) = { o with readers_in := o.readers_in + 1 }) ∧
    rwlock_lock_write (RwState.mk false 0 0 0) [] =
      some (RwState.mk false 0 0 0, RwState.mk true 0 0 0) ∧
    rwlock_lock_write (RwState.mk true 0 0 0) [RwState.mk false 0 1 0] =
      some (RwState.mk false 0 0 0, RwState.mk true 0 0 0) := by
  refine ⟨?_, ?_, ?_⟩
  · exact rwlock_wait_conditions_amended.1 (RwState.mk false 0 0 0) [] (RwState.mk false 1 0 0) rfl
  · exact rwlock_wait_conditions_amended.2.1 (RwState.mk false 0 0 0) [] rfl
  · exact rwlock_wait_conditions_amended.2.2 (RwState.mk true 0 0 0) (RwState.mk false 0 1 0) [] rfl

/-! ## Wait (`kern/syscall/lifecycle.c` `_wait`, `kern/prog/process.c`)

A child process as `_wait` sees it: its lifecycle state, exit status and
original-thread tid.  The calling process holds its children youngest
first (the `youngest_child`/`older_sibling` chain) and the size of its
waiter queue. -/

/-- Claim C3: with the kernel's waiter-queue invariants (never more
waiters than children, and strictly fewer when an exited child is
pending, which the entry gate of `_wait` and the waiter wakeup in
`_vanish` maintain): a pending exited child is reaped — its status is
stored when a status pointer was passed, it is destroyed, and its
original thread's tid is returned; NoChildren is returned only when
there are no children at all; WaitFull is returned only when no child is
exited and the number of waiting threads equals the number of
children. -/
theorem wait_reap_nochildren_waitfull (t : Task) (p : Bool)
    (hinv1 : t.waitingSize ≤ t.children.length)
    (hinv2 : (∃ c ∈ t.children, c.pstate = PrState.EXITED) →
      t.waitingSize < t.children.length) :
    (∀ c : Child, exited_child t = some c → c.original_tid ≠ -1 →
      _wait t p = WaitRes.reaped c.original_tid
        (if p then some c.exit_status else none)
        { t with children := t.children.eraseP fun c => c.pstate == PrState.EXITED }) ∧
    (∀ w, _wait t p = WaitRes.err ERR_NO_CHILDREN w → t.children = []) ∧
    (∀ w, _wait t p = WaitRes.err ERR_WAIT_FULL w →
      (∀ c ∈ t.children, c.pstate ≠ PrState.EXITED) ∧
      t.waitingSize = t.children.length) := by
  refine ⟨?_, ?_, ?_⟩
  · intro c hc hco
    have hne : ¬ t.children.length = 0 := by
      intro h0
      unfold exited_child at hc
      rw [if_pos h0] at hc
      exact Option.noConfusion hc
    have hc' : t.children.find? (fun c => c.pstate == PrState.EXITED) = some c := by
      unfold exited_child at hc
      rwa [if_neg hne] at hc
    have hmem : c ∈ t.children := List.mem_of_find?_eq_some hc'
    have hex : c.pstate = PrState.EXITED := by
      have := List.find?_some hc'
      simpa using this
    have hlt := hinv2 ⟨c, hmem, hex⟩
    unfold _wait
    rw [if_neg hne, if_neg (by omega : ¬ t.children.length ≤ t.waitingSize), hc]
    simp only [if_neg hne, if_neg hco]
  · intro w h
    unfold _wait at h
    by_cases h0 : t.children.length = 0
    · exact List.length_eq_zero.mp h0
    · rw [if_neg h0] at h
      by_cases h1 : t.children.length ≤ t.waitingSize
      · rw [if_pos h1] at h
        simp [ERR_WAIT_FULL, ERR_NO_CHILDREN] at h
      · rw [if_neg h1] at h
        match hec : exited_child t with
        | none => rw [hec] at h; exact WaitRes.noConfusion h
        | some c =>
          rw [hec] at h
          simp only [if_neg h0] at h
          by_cases h2 : c.original_tid = -1
          · simp only [if_pos h2] at h
            simp [ERR_NO_ORIGINAL_THREAD, ERR_NO_CHILDREN] at h
          · simp only [if_neg h2] at h
            exact WaitRes.noConfusion h
  · intro w h
    unfold _wait at h
    by_cases h0 : t.children.length = 0
    · rw [if_pos h0] at h
      simp [ERR_WAIT_FULL, ERR_NO_CHILDREN] at h
    · rw [if_neg h0] at h
      by_cases h1 : t.children.length ≤ t.waitingSize
      · have heq : t.waitingSize = t.children.length := by omega
        refine ⟨?_, heq⟩
        intro c hcmem hcex
        have := hinv2 ⟨c, hcmem, hcex⟩
        omega
      · rw [if_neg h1] at h
        match hec : exited_child t with
        | none => rw [hec] at h; exact WaitRes.noConfusion h
        | some c =>
          rw [hec] at h
          simp only [if_neg h0] at h
          by_cases h2 : c.original_tid = -1
          · simp only [if_pos h2] at h
            simp [ERR_NO_ORIGINAL_THREAD, ERR_WAIT_FULL] at h
          · simp only [if_neg h2] at h
            exact WaitRes.noConfusion h

theorem wait_reap_nochildren_waitfull_witness :
    _wait (Task.mk [Child.mk PrState.EXITED 7 42] 0) true =
      WaitRes.reaped 42 (some 7) (Task.mk [] 0) := by
  have h := (wait_reap_nochildren_waitfull (Task.mk [Child.mk PrState.EXITED 7 42] 0) true
    (by simp) (fun _ => by simp)).1
    (Child.mk PrState.EXITED 7 42) (by decide) (by decide)
  simpa using h

/-! Bit-level facts about the `PE_*` operations. -/

theorem or_ne_zero_right (x y : Nat) (hy : y ≠ 0) : x ||| y ≠ 0 := by
  intro h
  apply hy
  apply Nat.eq_of_testBit_eq
  intro i
  have hbit := congrArg (fun z => z.testBit i) h
  simp only [Nat.testBit_lor, Nat.zero_testBit] at hbit
  simp [(Bool.or_eq_false_iff.mp hbit).2]

theorem getaddr_setaddr (pe a : Nat) : PE_GETADDR (PE_SETADDR pe a) = a &&& ADDR_MASK := by
  unfold PE_GETADDR PE_SETADDR
  rw [Nat.and_distrib_right, Nat.and_assoc a, Nat.and_self,
      Nat.and_assoc pe, (by decide : FLAGS_MASK &&& ADDR_MASK = 0), Nat.and_zero, Nat.or_zero]

theorem getflag_setaddr (pe a g : Nat) : PE_GETFLAG (PE_SETADDR pe a) g = PE_GETFLAG pe g := by
  unfold PE_GETFLAG PE_SETADDR
  rw [Nat.and_distrib_right, Nat.and_assoc a, (by decide : ADDR_MASK &&& FLAGS_MASK = 0),
      Nat.and_zero, Nat.zero_or, Nat.and_assoc pe, Nat.and_self]

theorem getaddr_setflag (pe f : Nat) (hf : f &&& ADDR_MASK = 0) :
    PE_GETADDR (PE_SETFLAG pe f) = PE_GETADDR pe := by
  unfold PE_GETADDR PE_SETFLAG
  rw [Nat.and_distrib_right, hf, Nat.or_zero]

theorem getaddr_unsetflag (pe f : Nat)
    (hf : (UINT32_MASK ^^^ f) &&& ADDR_MASK = ADDR_MASK) :
    PE_GETADDR (PE_UNSETFLAG pe f) = PE_GETADDR pe := by
  unfold PE_GETADDR PE_UNSETFLAG
  rw [Nat.and_assoc, hf]

theorem getflag_setflag_self (pe f : Nat) (hf : (f &&& FLAGS_MASK) &&& f ≠ 0) :
    PE_GETFLAG (PE_SETFLAG pe f) f = true := by
  unfold PE_GETFLAG PE_SETFLAG
  rw [Nat.and_distrib_right, Nat.and_distrib_right]
  simpa using or_ne_zero_right ((pe &&& FLAGS_MASK) &&& f) ((f &&& FLAGS_MASK) &&& f) hf

theorem getflag_setflag_other (pe f g : Nat) (hfg : f &&& (FLAGS_MASK &&& g) = 0) :
    PE_GETFLAG (PE_SETFLAG pe f) g = PE_GETFLAG pe g := by
  unfold PE_GETFLAG PE_SETFLAG
  rw [Nat.and_distrib_right, Nat.and_distrib_right, Nat.and_assoc f, hfg, Nat.or_zero]

theorem getflag_unsetflag_self (pe f : Nat)
    (hf : (UINT32_MASK ^^^ f) &&& (FLAGS_MASK &&& f) = 0) :
    PE_GETFLAG (PE_UNSETFLAG pe f) f = false := by
  unfold PE_GETFLAG PE_UNSETFLAG
  rw [Nat.and_assoc, Nat.and_assoc, hf, Nat.and_zero]
  decide

theorem getflag_unsetflag_other (pe f g : Nat)
    (hf : (UINT32_MASK ^^^ f) &&& (FLAGS_MASK &&& g) = FLAGS_MASK &&& g) :
    PE_GETFLAG (PE_UNSETFLAG pe f) g = PE_GETFLAG pe g := by
  unfold PE_GETFLAG PE_UNSETFLAG
  rw [Nat.and_assoc, Nat.and_assoc, hf, ← Nat.and_assoc]

theorem addr_mask_testBit (i : Nat) :
    ADDR_MASK.testBit i = (decide (12 ≤ i) && decide (i < 32)) := by
  rw [(by decide : ADDR_MASK = (2 ^ 20 - 1) <<< 12)]
  rw [Nat.testBit_shiftLeft, Nat.testBit_two_pow_sub_one]
  simp only [ge_iff_le]
  by_cases h : 12 ≤ i
  · rw [decide_eq_true h]
    simp only [Bool.true_and]
    rw [decide_eq_decide]
    omega
  · rw [decide_eq_false h]
    simp only [Bool.false_and]

theorem aligned_and_ADDR_MASK {a : Nat} (h4 : a % PAGE_SIZE = 0) (h32 : a < 2 ^ 32) :
    a &&& ADDR_MASK = a := by
  apply Nat.eq_of_testBit_eq
  intro i
  rw [Nat.testBit_land, addr_mask_testBit]
  by_cases h12 : i < 12
  · have hm : a % 2 ^ 12 = 0 := by
      rwa [(by decide : PAGE_SIZE = 2 ^ 12)] at h4
    have ht := Nat.testBit_mod_two_pow a 12 i
    rw [hm, Nat.zero_testBit, decide_eq_true h12, Bool.true_and] at ht
    rw [← ht, Bool.false_and]
  · by_cases h32i : i < 32
    · rw [decide_eq_true (by omega : 12 ≤ i), decide_eq_true h32i, Bool.and_self,
        Bool.and_true]
    · have ha : a.testBit i = false :=
        Nat.testBit_lt_two_pow
          (lt_of_lt_of_le h32 (Nat.pow_le_pow_right (by norm_num) (by omega)))
      rw [ha, Bool.false_and]

theorem low_and_ADDR_MASK {n : Nat} (hn : n < PAGE_SIZE) : n &&& ADDR_MASK = 0 := by
  apply Nat.eq_of_testBit_eq
  intro i
  rw [Nat.testBit_land, addr_mask_testBit, Nat.zero_testBit]
  by_cases h12 : 12 ≤ i
  · have hlt : n < 2 ^ i :=
      lt_of_lt_of_le (by rwa [(by decide : PAGE_SIZE = 2 ^ 12)] at hn)
        (Nat.pow_le_pow_right (by norm_num) h12)
    rw [Nat.testBit_lt_two_pow hlt, Bool.false_and]
  · rw [decide_eq_false h12, Bool.false_and, Bool.and_false]

theorem page_addr_mod (x : Nat) : PAGE_ADDR x % PAGE_SIZE = 0 := by
  unfold PAGE_ADDR
  have h : (x &&& ADDR_MASK) &&& (2 ^ 12 - 1) = 0 := by
    rw [Nat.and_assoc, (by decide : ADDR_MASK &&& (2 ^ 12 - 1) = 0), Nat.and_zero]
  rw [Nat.and_pow_two_sub_one_eq_mod] at h
  rw [(by decide : PAGE_SIZE = 2 ^ 12)]
  exact h

theorem FRAME_ADDR_aligned (id : Nat) : FRAME_ADDR id % PAGE_SIZE = 0 := by
  unfold FRAME_ADDR USER_MEM_START PAGE_SIZE
  rw [Nat.shiftLeft_eq]
  omega

theorem FRAME_ID_FRAME_ADDR (id : Nat) : FRAME_ID (FRAME_ADDR id) = (id : Int) := by
  unfold FRAME_ID FRAME_ADDR
  rw [Nat.shiftLeft_eq]
  rw [if_neg (by omega : ¬ id * 2 ^ 12 + USER_MEM_START < USER_MEM_START)]
  congr 1
  rw [Nat.add_sub_cancel, Nat.shiftRight_eq_div_pow]
  exact Nat.mul_div_cancel id (by norm_num)

theorem FRAME_ADDR_lt (id : Nat) (h : id < 2 ^ 20 - 2 ^ 12) : FRAME_ADDR id < 2 ^ 32 := by
  unfold FRAME_ADDR USER_MEM_START
  rw [Nat.shiftLeft_eq]
  have h12 : (2 : Nat) ^ 12 = 4096 := by norm_num
  have h20 : (2 : Nat) ^ 20 = 1048576 := by norm_num
  have h32 : (2 : Nat) ^ 32 = 4294967296 := by norm_num
  rw [h12, h32]
  rw [h20, h12] at h
  omega

theorem mkPte_eq (f : Nat) : mkPte f = (f &&& ADDR_MASK) ||| 7 := by
  unfold mkPte PE_SETFLAG PE_SETADDR
  rw [(by decide : ((0 : Nat) ||| PTE_PRESENT ||| PTE_USER) &&& FLAGS_MASK = 5)]
  rw [Nat.or_assoc, (by decide : (5 : Nat) ||| PTE_READWRITE = 7)]

theorem getflag_addr_or7 (f g : Nat) :
    PE_GETFLAG ((f &&& ADDR_MASK) ||| 7) g = (((7 : Nat) &&& FLAGS_MASK) &&& g != 0) := by
  unfold PE_GETFLAG
  rw [Nat.and_distrib_right, Nat.and_distrib_right, Nat.and_assoc f,
      (by decide : ADDR_MASK &&& FLAGS_MASK = 0), Nat.and_zero, Nat.zero_and, Nat.zero_or]

theorem mkPte_flags (f : Nat) :
    PE_GETFLAG (mkPte f) PTE_PRESENT = true ∧
    PE_GETFLAG (mkPte f) PTE_USER = true ∧
    PE_GETFLAG (mkPte f) PTE_READWRITE = true ∧
    PE_GETFLAG (mkPte f) PTE_GLOBAL = false ∧
    PE_GETFLAG (mkPte f) PTE_ZEROPAGE = false ∧
    PE_GETFLAG (mkPte f) PTE_COPYONWRITE = false := by
  refine ⟨?_, ?_, ?_, ?_, ?_, ?_⟩ <;>
    rw [mkPte_eq, getflag_addr_or7] <;> decide

theorem mkPte_getaddr (f : Nat) (hal : f % PAGE_SIZE = 0) (h32 : f < 2 ^ 32) :
    PE_GETADDR (mkPte f) = f := by
  unfold mkPte
  rw [getaddr_setflag _ _ (by decide : PTE_READWRITE &&& ADDR_MASK = 0),
      getaddr_setaddr, aligned_and_ADDR_MASK hal h32]

/-- Claim C1, evaluated at the failing inputs: `create_page` of a Bss
page puts the shared zero frame and the ZeroPage flag in the entry but
— because `MEM_TYPE_BSS` sits in the read-write group of the final
`switch` — also sets ReadWrite, and `create_page` of a writable kind
with a reference frame sets CopyOnWrite but likewise sets ReadWrite
instead of leaving it unset, so neither entry is read-only and neither
write can ever fault into the ZFOD/COW path. -/
theorem create_page_bss_cow_sets_readwrite :
    create_page K0 USER_MEM_START MemType.BSS none =
      CRes.ok { K0 with pagemap := [(USER_MEM_START, 0x200207)] } ∧
    PE_GETFLAG 0x200207 PTE_ZEROPAGE = true ∧
    PE_GETADDR 0x200207 = zero_frame ∧
    PE_GETFLAG 0x200207 PTE_READWRITE = true ∧
    create_page K0 USER_MEM_START MemType.DATA (some (USER_MEM_START + PAGE_SIZE)) =
      CRes.ok { K0 with pagemap := [(USER_MEM_START, 0x1001407)] } ∧
    PE_GETFLAG 0x1001407 PTE_COPYONWRITE = true ∧
    PE_GETADDR 0x1001407 = USER_MEM_START + PAGE_SIZE ∧
    PE_GETFLAG 0x1001407 PTE_READWRITE = true := by
  refine ⟨?_, by decide, by decide, by decide, ?_, by decide, by decide, by decide⟩
  · set_option maxRecDepth 8192 in decide
  · set_option maxRecDepth 8192 in decide

theorem getD_set_self (l : List Nat) (i v : Nat) (h : i < l.length) :
    (l.set i v).getD i 0 = v := by
  simp [List.getD_eq_getElem?_getD, List.getElem?_set_self h]

theorem getD_set_ne (l : List Nat) (i j v : Nat) (h : i ≠ j) :
    (l.set i v).getD j 0 = l.getD j 0 := by
  simp [List.getD_eq_getElem?_getD, List.getElem?_set_ne h]

theorem cow_pte_cow (pte : Nat) : PE_GETFLAG (cow_pte pte) PTE_COPYONWRITE = false := by
  unfold cow_pte
  rw [getflag_setflag_other _ _ _ (by decide),
      getflag_unsetflag_self _ _ (by decide)]

theorem cow_pte_rw (pte : Nat) : PE_GETFLAG (cow_pte pte) PTE_READWRITE = true := by
  unfold cow_pte
  exact getflag_setflag_self _ _ (by decide)

theorem cow_pte_getaddr (pte : Nat) : PE_GETADDR (cow_pte pte) = PE_GETADDR pte := by
  unfold cow_pte
  rw [getaddr_setflag _ _ (by decide), getaddr_unsetflag _ _ (by decide)]

/-- Shape of `allocate_frame_r` when the hint points at a free frame:
the hinted frame is handed out with count 1 and the hint is rescanned. -/
theorem allocate_frame_hint (fa : FA) (h : Nat)
    (hh : fa.next_available_frame = (h : Int))
    (hz : fa.frames.getD h 0 = 0) :
    allocate_frame_r fa =
      ARes.ok (FRAME_ADDR h)
        (FA.mk (fa.frames.set h 1) (findFreeFrame (fa.frames.set h 1) h)) := by
  have hneg : ¬ (h : Int) = -1 := by omega
  rw [List.getD_eq_getElem?_getD] at hz
  unfold allocate_frame_r _get_frame
  rw [hh]
  simp [hneg, FRAME_ADDR_aligned h, FRAME_ID_FRAME_ADDR h, hz]

/-- Claim C2: on a fault on a CopyOnWrite-marked entry the handler
clears COW and sets ReadWrite; `copy_on_write` then (i) with the frame's
count at 1 succeeds with no allocation, no copy and no other change, and
(ii) with count at least 2 and a free frame available allocates that
frame, copies the old frame's contents through the scratch buffer into
it, retargets the entry to it, and decrements the old frame's count by
exactly one. -/
theorem page_fault_cow_spec (s : VMC) (addr : Nat)
    (hcow : PE_GETFLAG s.pte PTE_COPYONWRITE = true)
    (huser : USER_MEM_START ≤ PE_GETADDR s.pte)
    (hbound : s.fa.frames.length ≤ 2 ^ 20 - 2 ^ 12) :
    (PE_GETFLAG (cow_pte s.pte) PTE_COPYONWRITE = false ∧
     PE_GETFLAG (cow_pte s.pte) PTE_READWRITE = true ∧
     PE_GETADDR (cow_pte s.pte) = PE_GETADDR s.pte) ∧
    (s.fa.frames.getD (FRAME_ID (PE_GETADDR s.pte)).toNat 0 = 1 →
      page_fault_cow s addr = VRes.ret 0 (VMC.mk s.fa s.contents (cow_pte s.pte))) ∧
    (∀ h : Nat,
      2 ≤ s.fa.frames.getD (FRAME_ID (PE_GETADDR s.pte)).toNat 0 →
      s.fa.next_available_frame = (h : Int) →
      s.fa.frames.getD h 0 = 0 →
      h < s.fa.frames.length →
      page_fault_cow s addr = VRes.ret 0 (VMC.mk
        (FA.mk ((s.fa.frames.set h 1).set (FRAME_ID (PE_GETADDR s.pte)).toNat
            (s.fa.frames.getD (FRAME_ID (PE_GETADDR s.pte)).toNat 0 - 1))
          (findFreeFrame (s.fa.frames.set h 1) h))
        (s.contents.set h (s.contents.getD (FRAME_ID (PE_GETADDR s.pte)).toNat 0))
        (PE_SETADDR (cow_pte s.pte) (FRAME_ADDR h))) ∧
      FRAME_ADDR h ≠ PE_GETADDR s.pte ∧
      PE_GETADDR (PE_SETADDR (cow_pte s.pte) (FRAME_ADDR h)) = FRAME_ADDR h) := by
  have hga := cow_pte_getaddr s.pte
  refine ⟨⟨cow_pte_cow s.pte, cow_pte_rw s.pte, hga⟩, ?_, ?_⟩
  · intro h1
    unfold page_fault_cow copy_on_write
    simp only [hga]
    rw [if_neg (by simp [page_addr_mod addr])]
    rw [if_pos h1]
  · intro h h2 hh hz hlt
    have hne : h ≠ (FRAME_ID (PE_GETADDR s.pte)).toNat := by
      intro heq
      rw [heq] at hz
      omega
    have hfne : FRAME_ADDR h ≠ PE_GETADDR s.pte := by
      intro heq
      have hid : FRAME_ID (FRAME_ADDR h) = FRAME_ID (PE_GETADDR s.pte) := by rw [heq]
      rw [FRAME_ID_FRAME_ADDR] at hid
      apply hne
      rw [← hid, Int.toNat_ofNat]
    have hgaddr : PE_GETADDR (PE_SETADDR (cow_pte s.pte) (FRAME_ADDR h)) = FRAME_ADDR h := by
      rw [getaddr_setaddr,
        aligned_and_ADDR_MASK (FRAME_ADDR_aligned h) (FRAME_ADDR_lt h (by omega))]
    refine ⟨?_, hfne, hgaddr⟩
    unfold page_fault_cow copy_on_write
    simp only [hga]
    rw [if_neg (by simp [page_addr_mod addr])]
    rw [if_neg (by omega : ¬ s.fa.frames.getD (FRAME_ID (PE_GETADDR s.pte)).toNat 0 = 1),
        if_neg (by omega : ¬ s.fa.frames.getD (FRAME_ID (PE_GETADDR s.pte)).toNat 0 = 0)]
    rw [allocate_frame_hint s.fa h hh hz]
    simp only [FRAME_ID_FRAME_ADDR h, Int.toNat_ofNat, hgaddr]
    rw [getD_set_ne _ _ _ _ hne]

theorem page_fault_cow_spec_witness :
    page_fault_cow (VMC.mk (FA.mk [0, 2] 0) [5, 9] 0x1001407) 0x30000000 =
      VRes.ret 0 (VMC.mk (FA.mk [1, 1] (-1)) [9, 9] 0x1000007) := by
  have h := (page_fault_cow_spec (VMC.mk (FA.mk [0, 2] 0) [5, 9] 0x1001407) 0x30000000
    (by decide) (by decide) (by norm_num)).2.2 0 (by decide) (by decide) (by decide)
    (by decide)
  rw [h.1]
  decide

/-! Helper facts for the `new_pages`/`remove_pages` analysis. -/

theorem find?_range'_eq_some {p : Nat → Bool} :
    ∀ (m a i : Nat), a ≤ i → i < a + m → p i = true →
    (∀ j, a ≤ j → j < i → p j = false) →
    (List.range' a m).find? p = some i := by
  intro m
  induction m with
  | zero => intro a i h1 h2 _ _; omega
  | succ m ih =>
    intro a i h1 h2 hp hmin
    rw [List.range'_succ, List.find?_cons]
    by_cases hai : a = i
    · subst hai
      rw [hp]
    · have hpa : p a = false := hmin a (Nat.le_refl a) (by omega)
      rw [hpa]
      exact ih (a + 1) i (by omega) (by omega) hp fun j hj1 hj2 => hmin j (by omega) hj2

theorem find?_range_eq_some {p : Nat → Bool} {n i : Nat}
    (hi : i < n) (hp : p i = true) (hmin : ∀ j < i, p j = false) :
    (List.range n).find? p = some i := by
  rw [List.range_eq_range']
  exact find?_range'_eq_some n 0 i (Nat.zero_le i) (by omega) hp
    fun j _ hj2 => hmin j hj2

theorem memregionScan_ne (mem : List Nat) (idx : Nat) (hidx : idx < PAGE_TABLE_ENTRIES) :
    memregionScan mem idx ≠ (idx : Int) := by
  unfold memregionScan
  rcases h : (List.range (PAGE_TABLE_ENTRIES - 1)).find?
      (fun j => mem.getD ((idx + 1 + j) % PAGE_TABLE_ENTRIES) 0 == 0) with _ | j
  · simp only [h]
    omega
  · simp only [h]
    have hj := List.mem_of_find?_eq_some h
    rw [List.mem_range] at hj
    intro hc
    have hnat : (idx + 1 + j) % PAGE_TABLE_ENTRIES = idx := by exact_mod_cast hc
    unfold PAGE_TABLE_ENTRIES at hnat hj hidx
    omega

theorem findFreeFrame_spec (frames : List Nat) (start : Nat) :
    findFreeFrame frames start = -1 ∨
    (0 ≤ findFreeFrame frames start ∧
     (findFreeFrame frames start).toNat < frames.length ∧
     frames.getD (findFreeFrame frames start).toNat 0 = 0) := by
  unfold findFreeFrame
  rcases h : (List.range frames.length).find?
      (fun i => frames.getD ((start + i) % frames.length) 0 == 0) with _ | i
  · simp only [h]
    left
    trivial
  · simp only [h]
    right
    have hp := List.find?_some h
    have hmem := List.mem_of_find?_eq_some h
    rw [List.mem_range] at hmem
    have hlen : 0 < frames.length := by omega
    refine ⟨by omega, ?_, ?_⟩
    · rw [Int.toNat_ofNat]
      exact Nat.mod_lt _ hlen
    · rw [Int.toNat_ofNat]
      simpa using hp

theorem hintInv_findFreeFrame (frames : List Nat) (start : Nat) :
    hintInv (FA.mk frames (findFreeFrame frames start)) := by
  unfold hintInv
  simpa using findFreeFrame_spec frames start

theorem list_eq_of_getD {l1 l2 : List Nat} (hlen : l1.length = l2.length)
    (h : ∀ g, l1.getD g 0 = l2.getD g 0) : l1 = l2 := by
  apply List.ext_getElem?
  intro n
  by_cases hn : n < l1.length
  · have h1 : l1[n]? = some l1[n] := List.getElem?_eq_getElem hn
    have h2 : l2[n]? = some l2[n] := List.getElem?_eq_getElem (hlen ▸ hn)
    have := h n
    rw [List.getD_eq_getElem?_getD, List.getD_eq_getElem?_getD, h1, h2] at this
    simp only [Option.getD_some] at this
    rw [h1, h2, this]
  · rw [List.getElem?_eq_none (by omega), List.getElem?_eq_none (by omega : l2.length ≤ n)]

theorem set_zero_of_getD_zero (l : List Nat) (c : Nat) (h : l.getD c 0 = 0) :
    l.set c 0 = l := by
  apply List.ext_getElem?
  intro n
  by_cases hn : n = c
  · subst hn
    by_cases hlt : n < l.length
    · rw [List.getElem?_set_self hlt]
      rw [List.getD_eq_getElem?_getD, List.getElem?_eq_getElem hlt] at h
      simp only [Option.getD_some] at h
      rw [List.getElem?_eq_getElem hlt, h]
    · rw [List.getElem?_eq_none (by simp; omega), List.getElem?_eq_none (by omega)]
  · rw [List.getElem?_set_ne fun hc => hn hc.symm]

theorem or_low_and_ADDR {base n : Nat} (hal : base % PAGE_SIZE = 0) (hb32 : base < 2 ^ 32)
    (hn : n < PAGE_SIZE) : (base ||| n) &&& ADDR_MASK = base := by
  rw [Nat.and_distrib_right, aligned_and_ADDR_MASK hal hb32, low_and_ADDR_MASK hn,
    Nat.or_zero]

theorem or_low_and_FLAGS {base n : Nat} (hal : base % PAGE_SIZE = 0)
    (hn : n < PAGE_SIZE) : (base ||| n) &&& FLAGS_MASK = n := by
  have hb : base &&& FLAGS_MASK = 0 := by
    rw [(by decide : FLAGS_MASK = 2 ^ 12 - 1), Nat.and_pow_two_sub_one_eq_mod]
    rwa [(by decide : PAGE_SIZE = 2 ^ 12)] at hal
  have hnn : n &&& FLAGS_MASK = n := by
    rw [(by decide : FLAGS_MASK = 2 ^ 12 - 1), Nat.and_pow_two_sub_one_eq_mod]
    exact Nat.mod_eq_of_lt (by rwa [(by decide : PAGE_SIZE = 2 ^ 12)] at hn)
  rw [Nat.and_distrib_right, hb, hnn, Nat.zero_or]

theorem create_page_err_ne {k k1 : Kernel} {va : Nat} {ty : MemType}
    {rf : Option Nat} {e : Int}
    (h : create_page k va ty rf = CRes.err e k1) : e ≠ 0 := by
  unfold create_page create_page_entry at h
  dsimp only at h
  repeat' split at h
  all_goals cases h
  all_goals decide

/-- Shape of a successful `create_page` for a writable user page with no
reference frame: the pre-state passed every check, the page was unmapped,
and the new state maps it to a fresh frame taken at the allocator
hint. -/
theorem create_page_user_ok {k k1 : Kernel} {va : Nat}
    (hinv : hintInv k.fa)
    (hok : create_page k va MemType.USER none = CRes.ok k1) :
    va % PAGE_SIZE = 0 ∧ USER_MEM_START ≤ va ∧
    k.pagemap.lookup va = none ∧
    ∃ h : Nat, k.fa.next_available_frame = (h : Int) ∧ h < k.fa.frames.length ∧
      k.fa.frames.getD h 0 = 0 ∧
      k1 = Kernel.mk
        (FA.mk (k.fa.frames.set h 1) (findFreeFrame (k.fa.frames.set h 1) h))
        ((va, mkPte (FRAME_ADDR h)) :: k.pagemap)
        k.memregions k.next_memregion_idx ∧
      hintInv k1.fa := by
  unfold create_page at hok
  split at hok
  · exact CRes.noConfusion hok
  rename_i hal
  split at hok
  · exact CRes.noConfusion hok
  rename_i hus
  split at hok
  · rename_i hfalse
    exact Bool.noConfusion hfalse
  split at hok
  case isFalse hcond =>
    exact absurd ⟨by decide, rfl⟩ hcond
  case isTrue hcond =>
    split at hok
    case h_1 heq => exact CRes.noConfusion hok
    case h_2 heq => exact CRes.noConfusion hok
    case h_3 f fa1 halloc =>
      rcases hinv with hneg | ⟨hpos, hlt, hz⟩
      · unfold allocate_frame_r at halloc
        rw [if_pos hneg] at halloc
        exact ARes.noConfusion halloc
      · have hh : k.fa.next_available_frame = (k.fa.next_available_frame.toNat : Int) :=
          (Int.toNat_of_nonneg hpos).symm
        rw [allocate_frame_hint k.fa _ hh hz] at halloc
        injection halloc with hf hfa
        subst hf
        subst hfa
        unfold create_page_entry at hok
        dsimp only at hok
        split at hok
        case h_1 pte hlook =>
          split at hok
          · exact CRes.noConfusion hok
          · exact CRes.noConfusion hok
        case h_2 hlook =>
          rw [if_neg (by decide : ¬ MemType.USER = MemType.BSS)] at hok
          simp only [Option.getD_some] at hok
          refine ⟨by simpa using hal, by omega, hlook, k.fa.next_available_frame.toNat,
            hh, hlt, hz, ?_, ?_⟩
          · cases hok
            rfl
          · cases hok
            exact hintInv_findFreeFrame _ _

/-- Shape of `free_frame` on a live frame: the count is decremented; the
hint may or may not be revived. -/
theorem free_frame_dec (fa : FA) (fid : Nat) (hcnt : 1 ≤ fa.frames.getD fid 0) :
    ∃ hint1 : Int, free_frame fa (FRAME_ADDR fid) =
      (0, FA.mk (fa.frames.set fid (fa.frames.getD fid 0 - 1)) hint1) := by
  unfold free_frame
  rw [if_neg (by simp [FRAME_ADDR_aligned fid])]
  simp only [FRAME_ID_FRAME_ADDR, Int.toNat_ofNat]
  rw [if_neg (by omega : ¬ ((fid : Int) = -1))]
  rw [if_neg (by omega : ¬ fa.frames.getD fid 0 = 0)]
  split
  · exact ⟨(fid : Int), rfl⟩
  · exact ⟨fa.next_available_frame, rfl⟩

/-- Shape of `destroy_page` on a page mapped by the `new_pages` path:
the binding is erased and its frame's count decremented. -/
theorem destroy_page_mkPte {k : Kernel} {va fid : Nat}
    (hva : va % PAGE_SIZE = 0)
    (hlook : k.pagemap.lookup va = some (mkPte (FRAME_ADDR fid)))
    (hfb : fid < 2 ^ 20 - 2 ^ 12)
    (hcnt : 1 ≤ k.fa.frames.getD fid 0) :
    ∃ hint1 : Int, destroy_page k va = CRes.ok (Kernel.mk
      (FA.mk (k.fa.frames.set fid (k.fa.frames.getD fid 0 - 1)) hint1)
      (k.pagemap.eraseP (fun p => p.1 == va))
      k.memregions k.next_memregion_idx) := by
  have hflags := mkPte_flags (FRAME_ADDR fid)
  have hga := mkPte_getaddr (FRAME_ADDR fid) (FRAME_ADDR_aligned fid) (FRAME_ADDR_lt fid hfb)
  unfold destroy_page
  rw [if_neg (by simp [hva])]
  rw [hlook]
  dsimp only
  rw [hflags.1, hflags.2.2.2.1, hflags.2.1]
  simp only [Bool.not_true, Bool.false_eq_true, if_false, Bool.not_false, if_true]
  rw [hga]
  obtain ⟨hint1, hfree⟩ := free_frame_dec k.fa fid hcnt
  rw [hfree]
  exact ⟨hint1, rfl⟩

/-- Shape of a fully successful creation loop of `_new_pages`: one fresh
frame per page, each taken at count 0 and bumped to 1, the corresponding
bindings prepended, everything else untouched. -/
theorem np_create_shape (base : Nat) :
    ∀ (n : Nat) (k k1 : Kernel) (i : Nat), hintInv k.fa →
    np_create_loop base k i n = NPLoop.ok k1 →
    ∃ fids : List Nat,
      fids.length = n ∧
      (∀ f ∈ fids, f < k.fa.frames.length) ∧
      k1.fa.frames.length = k.fa.frames.length ∧
      (∀ g, k1.fa.frames.getD g 0 = k.fa.frames.getD g 0 + fids.count g) ∧
      hintInv k1.fa ∧
      k1.pagemap = (buildBinds base i fids).reverse ++ k.pagemap ∧
      ((buildBinds base i fids).map Prod.fst).Nodup ∧
      (∀ key ∈ (buildBinds base i fids).map Prod.fst, k.pagemap.lookup key = none) ∧
      k1.memregions = k.memregions ∧ k1.next_memregion_idx = k.next_memregion_idx := by
  intro n
  induction n with
  | zero =>
    intro k k1 i hinv hok
    simp only [np_create_loop] at hok
    cases hok
    exact ⟨[], rfl, by simp, rfl, by simp [buildBinds], hinv, by simp [buildBinds],
      by simp [buildBinds], by simp [buildBinds], rfl, rfl⟩
  | succ n ih =>
    intro k k1 i hinv hok
    simp only [np_create_loop] at hok
    split at hok
    case h_2 e kf hc => exact NPLoop.noConfusion hok
    case h_3 hc => exact NPLoop.noConfusion hok
    case h_1 k' hc =>
      obtain ⟨hal, hus, hlookup, h, hh, hlt, hz, hk', hinv'⟩ := create_page_user_ok hinv hc
      subst hk'
      obtain ⟨fids', hlen', hbnd', hflen', hcnt', hinv1, hpm', hnd', hfresh', hmem', hidx'⟩ :=
        ih _ k1 (i + 1) hinv' hok
      refine ⟨h :: fids', by simp [hlen'], ?_, ?_, ?_, hinv1, ?_, ?_, ?_, ?_, ?_⟩
      · intro f hf
        rcases List.mem_cons.mp hf with rfl | hf'
        · exact hlt
        · have := hbnd' f hf'
          simpa using this
      · simpa using hflen'
      · intro g
        have hg := hcnt' g
        by_cases hgh : g = h
        · subst hgh
          rw [getD_set_self _ _ _ hlt] at hg
          have hcc : (g :: fids').count g = fids'.count g + 1 := by simp
          omega
        · rw [getD_set_ne _ _ _ _ (fun hc2 => hgh hc2.symm)] at hg
          have hcc : (h :: fids').count g = fids'.count g := by
            simp [List.count_cons, hgh]
          omega
      · rw [hpm']
        simp only [buildBinds, List.reverse_cons]
        rw [List.append_assoc, List.singleton_append]
      · simp only [buildBinds, List.map_cons, List.nodup_cons]
        refine ⟨?_, hnd'⟩
        intro hmem
        have := hfresh' _ hmem
        simp [List.lookup_cons_self] at this
      · intro key hkey
        simp only [buildBinds, List.map_cons, List.mem_cons] at hkey
        rcases hkey with rfl | htail
        · exact hlookup
        · have := hfresh' key htail
          rw [List.lookup_eq_none_iff] at this ⊢
          intro p hp
          exact this p (List.mem_cons_of_mem _ hp)
      · simpa using hmem'
      · simpa using hidx'

/-- The destruction loop over exactly the pages the creation loop built
removes the added bindings and returns every touched frame count to its
original value. -/
theorem np_destroy_restore (base : Nat) :
    ∀ (fids : List Nat) (i : Nat) (k0 kc : Kernel),
    kc.pagemap = (buildBinds base i fids).reverse ++ k0.pagemap →
    kc.fa.frames.length = k0.fa.frames.length →
    (∀ g, kc.fa.frames.getD g 0 = k0.fa.frames.getD g 0 + fids.count g) →
    (∀ f ∈ fids, f < k0.fa.frames.length) →
    ((buildBinds base i fids).map Prod.fst).Nodup →
    (∀ key ∈ (buildBinds base i fids).map Prod.fst, k0.pagemap.lookup key = none) →
    k0.fa.frames.length ≤ 2 ^ 20 - 2 ^ 12 →
    base % PAGE_SIZE = 0 →
    ∃ k2, np_destroy_loop base kc i fids.length = some k2 ∧
      k2.pagemap = k0.pagemap ∧
      k2.fa.frames.length = k0.fa.frames.length ∧
      (∀ g, k2.fa.frames.getD g 0 = k0.fa.frames.getD g 0) ∧
      k2.memregions = kc.memregions ∧
      k2.next_memregion_idx = kc.next_memregion_idx := by
  intro fids
  induction fids with
  | nil =>
    intro i k0 kc hpm hlen hcnt _ _ _ _ _
    refine ⟨kc, by simp [np_destroy_loop], by simpa [buildBinds] using hpm, hlen, ?_, rfl, rfl⟩
    intro g
    have := hcnt g
    simpa using this
  | cons f fs ih =>
    intro i k0 kc hpm hlen hcnt hbnd hnd hfresh hbound hbase
    have hvamod : (base + i * PAGE_SIZE) % 2 ^ 32 % PAGE_SIZE = 0 := by
      rw [Nat.mod_mod_of_dvd _ (by decide : PAGE_SIZE ∣ 2 ^ 32),
        Nat.add_mul_mod_self_right, hbase]
    simp only [buildBinds, List.map_cons, List.nodup_cons] at hnd
    obtain ⟨hva_notin, hndt⟩ := hnd
    have hlook : kc.pagemap.lookup ((base + i * PAGE_SIZE) % 2 ^ 32) =
        some (mkPte (FRAME_ADDR f)) := by
      rw [hpm]
      simp only [buildBinds, List.reverse_cons]
      rw [List.append_assoc, List.singleton_append, List.lookup_append]
      have hpre : ((buildBinds base (i + 1) fs).reverse).lookup
          ((base + i * PAGE_SIZE) % 2 ^ 32) = none := by
        rw [List.lookup_eq_none_iff]
        intro p hp
        have hp' : p ∈ buildBinds base (i + 1) fs := by simpa using hp
        have hpk : p.1 ∈ (buildBinds base (i + 1) fs).map Prod.fst :=
          List.mem_map_of_mem _ hp'
        rw [bne_iff_ne]
        intro hEq
        exact hva_notin (hEq ▸ hpk)
      rw [hpre, Option.none_or, List.lookup_cons_self]
    have hcf : 1 ≤ kc.fa.frames.getD f 0 := by
      have h1 := hcnt f
      have h2 : (f :: fs).count f = fs.count f + 1 := by simp
      omega
    have hfb : f < 2 ^ 20 - 2 ^ 12 := lt_of_lt_of_le (hbnd f (by simp)) hbound
    obtain ⟨hint1, hdp⟩ := destroy_page_mkPte hvamod hlook hfb hcf
    have hep : kc.pagemap.eraseP (fun p => p.1 == ((base + i * PAGE_SIZE) % 2 ^ 32)) =
        (buildBinds base (i + 1) fs).reverse ++ k0.pagemap := by
      rw [hpm]
      simp only [buildBinds, List.reverse_cons]
      rw [List.append_assoc, List.singleton_append]
      rw [List.eraseP_append_right]
      · rw [List.eraseP_cons_of_pos (by simp)]
      · intro b hb
        have hb' : b ∈ buildBinds base (i + 1) fs := by simpa using hb
        have hbk : b.1 ∈ (buildBinds base (i + 1) fs).map Prod.fst :=
          List.mem_map_of_mem _ hb'
        simp only [Bool.not_eq_true, beq_eq_false_iff_ne, ne_eq]
        intro hEq
        exact hva_notin (hEq ▸ hbk)
    have hlen' : f < kc.fa.frames.length := by
      rw [hlen]
      exact hbnd f (by simp)
    obtain ⟨k2, hloop, hpm2, hlen2, hcnt2, hmem2, hidx2⟩ :=
      ih (i + 1) k0
        (Kernel.mk
          (FA.mk (kc.fa.frames.set f (kc.fa.frames.getD f 0 - 1)) hint1)
          (kc.pagemap.eraseP (fun p => p.1 == (base + i * PAGE_SIZE) % 2 ^ 32))
          kc.memregions kc.next_memregion_idx)
        (by dsimp only; rw [hep])
        (by dsimp only; rw [List.length_set]; exact hlen)
        (by
          intro g
          dsimp only
          by_cases hgf : g = f
          · subst hgf
            rw [getD_set_self _ _ _ hlen']
            have h1 := hcnt g
            have h2 : (g :: fs).count g = fs.count g + 1 := by simp
            omega
          · rw [getD_set_ne _ _ _ _ (fun hc2 => hgf hc2.symm)]
            have h1 := hcnt g
            have h2 : (f :: fs).count g = fs.count g := by
              simp [List.count_cons, hgf]
            omega)
        (fun f' hf' => hbnd f' (List.mem_cons_of_mem _ hf'))
        hndt
        (by
          intro key hk
          apply hfresh key
          simp only [buildBinds, List.map_cons, List.mem_cons]
          right
          exact hk)
        hbound hbase
    refine ⟨k2, ?_, hpm2, hlen2, hcnt2, by simpa using hmem2, by simpa using hidx2⟩
    simp only [List.length_cons, np_destroy_loop]
    rw [hdp]
    exact hloop

theorem np_create_fail_ne (base : Nat) :
    ∀ (n : Nat) (k : Kernel) (i : Nat) (e : Int) (kf : Kernel) (c : Nat),
    np_create_loop base k i n = NPLoop.fail e kf c → e ≠ 0 := by
  intro n
  induction n with
  | zero =>
    intro k i e kf c h
    simp only [np_create_loop] at h
    exact NPLoop.noConfusion h
  | succ n ih =>
    intro k i e kf c h
    simp only [np_create_loop] at h
    split at h
    case h_1 k' hc => exact ih k' (i + 1) e kf c h
    case h_2 e' k' hc =>
      injection h with h1 h2 h3
      subst h1
      exact create_page_err_ne hc
    case h_3 hc => exact NPLoop.noConfusion h

/-- Claim C6, amended: a successful `new_pages(b, l)` followed by
`remove_pages(b)` restores the memregion entries, the page map and every
frame reference count to their prior values; the cursor (and the
allocator's free-frame hint) are not restored in general.  Stated under
the kernel's state invariants: a valid allocator hint, a valid cursor, a
full-sized memregion table, no existing region with base `b`, and the
32-bit ranges of the source types. -/
theorem new_remove_roundtrip (k : Kernel) (base : Nat) (len : Int) (k1 : Kernel)
    (hinv : hintInv k.fa)
    (hbound : k.fa.frames.length ≤ 2 ^ 20 - 2 ^ 12)
    (hb32 : base < 2 ^ 32)
    (hmlen : k.memregions.length = PAGE_TABLE_ENTRIES)
    (hfresh : ∀ i < PAGE_TABLE_ENTRIES, k.memregions.getD i 0 &&& ADDR_MASK ≠ base)
    (hcur : memregionCursorInv k)
    (hpos : 0 < len)
    (hsucc : _new_pages k base len = PRes.ret 0 k1) :
    ∃ k2, _remove_pages k1 base = PRes.ret 0 k2 ∧
      k2.memregions = k.memregions ∧
      k2.fa.frames = k.fa.frames ∧
      k2.pagemap = k.pagemap := by
  unfold _new_pages at hsucc
  split at hsucc
  · injection hsucc with h1 _
    exact absurd h1 (by decide)
  rename_i halB
  split at hsucc
  · injection hsucc with h1 _
    exact absurd h1 (by decide)
  rename_i hlenok
  split at hsucc
  · injection hsucc with h1 _
    exact absurd h1 (by decide)
  rename_i hcne
  have hal : base % PAGE_SIZE = 0 := by simpa using halB
  push_neg at hlenok
  obtain ⟨hlen0, hlenmod, hlenmax⟩ := hlenok
  have hn1 : 1 ≤ (len / (PAGE_SIZE : Int)).toNat ∧
      (len / (PAGE_SIZE : Int)).toNat < PAGE_SIZE ∧
      (len / (PAGE_SIZE : Int)).toNat ≤ 0xfff := by
    simp only [PAGE_SIZE] at hlenmod hlenmax ⊢
    omega
  rcases hcur with hc1 | ⟨hcpos, hclt, hc0⟩
  · exact absurd hc1 hcne
  dsimp only at hsucc
  split at hsucc
  case h_1 hloop => exact PRes.noConfusion hsucc
  case h_2 e kf i hloop =>
    split at hsucc
    · injection hsucc with h1 _
      exact absurd h1 (np_create_fail_ne base _ k 0 e kf i hloop)
    · exact PRes.noConfusion hsucc
  case h_3 kl hloop =>
    obtain ⟨fids, hflen_eq, hfbnd, hfl, hfcnt, hinv1, hfpm, hfnd, hffresh, hfmem, hfidx⟩ :=
      np_create_shape base _ k kl 0 hinv hloop
    cases hsucc
    rw [hfmem]
    unfold _remove_pages
    rw [if_neg (by simp [hal])]
    dsimp only
    have hgetDc : (k.memregions.set k.next_memregion_idx.toNat
        (base ||| (len / (PAGE_SIZE : Int)).toNat)).getD k.next_memregion_idx.toNat 0 =
        base ||| (len / (PAGE_SIZE : Int)).toNat :=
      getD_set_self _ _ _ (by omega)
    have hentry_mask : (base ||| (len / (PAGE_SIZE : Int)).toNat) &&& ADDR_MASK = base :=
      or_low_and_ADDR hal hb32 hn1.2.1
    have hfind : (List.range PAGE_TABLE_ENTRIES).find?
        (fun i => (k.memregions.set k.next_memregion_idx.toNat
          (base ||| (len / (PAGE_SIZE : Int)).toNat)).getD i 0 &&& ADDR_MASK == base) =
        some k.next_memregion_idx.toNat := by
      apply find?_range_eq_some hclt
      · rw [hgetDc, hentry_mask]
        simp
      · intro j hj
        rw [getD_set_ne _ _ _ _ (by omega)]
        simp only [beq_eq_false_iff_ne, ne_eq]
        exact hfresh j (by omega)
    rw [hfind]
    dsimp only
    rw [hgetDc, or_low_and_FLAGS hal hn1.2.1]
    rw [if_neg (by omega : ¬ (len / (PAGE_SIZE : Int)).toNat = 0)]
    obtain ⟨k2, hloop2, hpm2, hlen2, hcnt2, hmem2, hidx2⟩ :=
      np_destroy_restore base fids 0 k
        (Kernel.mk kl.fa kl.pagemap
          (k.memregions.set k.next_memregion_idx.toNat
            (base ||| (len / (PAGE_SIZE : Int)).toNat))
          (memregionScan (k.memregions.set k.next_memregion_idx.toNat
            (base ||| (len / (PAGE_SIZE : Int)).toNat)) k.next_memregion_idx.toNat))
        (by dsimp only; exact hfpm)
        (by dsimp only; exact hfl)
        (by intro g; dsimp only; exact hfcnt g)
        hfbnd hfnd hffresh hbound hal
    rw [← hflen_eq] at hloop2 ⊢
    rw [hloop2]
    dsimp only
    refine ⟨_, rfl, ?_, list_eq_of_getD hlen2 hcnt2, hpm2⟩
    rw [hmem2]
    dsimp only
    rw [List.set_set]
    exact set_zero_of_getD_zero _ _ hc0

/-- Claim C6, counterexample to the cursor clause as written: from the
pristine state `K0` (cursor at slot 0), `new_pages(0x1000000, 4096)`
followed by `remove_pages(0x1000000)` both succeed, yet the final cursor
is 1, not the original 0: `_remove_pages` restores the cursor only when
it had become the full sentinel -1. -/
theorem new_remove_cursor_counterexample :
    roundTripCursor K0 0x1000000 4096 = some 1 ∧ K0.next_memregion_idx = 0 := by
  exact ⟨by set_option maxRecDepth 8192 in decide, rfl⟩

set_option maxRecDepth 8192 in
theorem new_remove_roundtrip_witness :
    ∃ k2, _remove_pages (Kernel.mk (FA.mk [1, 0] 1) [(0x1000000, 0x1000007)]
          ((List.replicate PAGE_TABLE_ENTRIES 0).set 0 0x1000001) 1) 0x1000000 =
        PRes.ret 0 k2 ∧
      k2.memregions = K0.memregions ∧ k2.fa.frames = K0.fa.frames ∧
      k2.pagemap = K0.pagemap := by
  apply new_remove_roundtrip K0 0x1000000 4096
  · exact Or.inr ⟨by decide, by decide, by decide⟩
  · decide
  · decide
  · simp [K0, PAGE_TABLE_ENTRIES]
  · intro i hi
    show (List.replicate PAGE_TABLE_ENTRIES 0).getD i 0 &&& ADDR_MASK ≠ 0x1000000
    rw [List.getD_eq_getElem?_getD, List.getElem?_replicate, if_pos hi]
    decide
  · refine Or.inr ⟨by decide, by decide, ?_⟩
    show (List.replicate PAGE_TABLE_ENTRIES 0).getD (Int.toNat 0) 0 = 0
    rw [List.getD_eq_getElem?_getD, List.getElem?_replicate]
    decide
  · decide
  · set_option maxRecDepth 8192 in rfl

set_option maxRecDepth 8192 in
/-- Claim C10: for a page-aligned base with no existing region at that
base and a free cursor slot, `new_pages(b, 0)` returns 0, creates no
pages (page map and frame allocator untouched), records the entry
`b ||| 0 = b` in the cursor's memregion slot and moves the cursor off
that slot; the subsequent `remove_pages(b)` returns the not-found error
-2 (the zero page count in the entry's low bits is treated as no region)
and changes nothing, so the slot stays occupied. -/
theorem new_pages_zero_len (k : Kernel) (base : Nat)
    (hal : base % PAGE_SIZE = 0) (hb32 : base < 2 ^ 32)
    (hmlen : k.memregions.length = PAGE_TABLE_ENTRIES)
    (hfresh : ∀ i < PAGE_TABLE_ENTRIES, k.memregions.getD i 0 &&& ADDR_MASK ≠ base)
    (hcpos : 0 ≤ k.next_memregion_idx)
    (hclt : k.next_memregion_idx.toNat < PAGE_TABLE_ENTRIES)
    (hc0 : k.memregions.getD k.next_memregion_idx.toNat 0 = 0) :
    ∃ k1, _new_pages k base 0 = PRes.ret 0 k1 ∧
      k1.pagemap = k.pagemap ∧
      k1.fa = k.fa ∧
      k1.memregions = k.memregions.set k.next_memregion_idx.toNat base ∧
      k1.memregions.getD k.next_memregion_idx.toNat 0 = base ∧
      k1.next_memregion_idx ≠ k.next_memregion_idx ∧
      _remove_pages k1 base = PRes.ret (-2) k1 := by
  unfold _new_pages
  rw [if_neg (by simp [hal])]
  rw [if_neg (by push_neg
                 refine ⟨le_refl 0, by norm_num, by positivity⟩)]
  rw [if_neg (by omega : ¬ k.next_memregion_idx = -1)]
  dsimp only
  have h0 : ((0 : Int) / (PAGE_SIZE : Int)).toNat = 0 := by norm_num
  rw [h0]
  simp only [np_create_loop]
  rw [Nat.or_zero]
  have hgetDc : (k.memregions.set k.next_memregion_idx.toNat base).getD
      k.next_memregion_idx.toNat 0 = base :=
    getD_set_self _ _ _ (by omega)
  refine ⟨_, rfl, rfl, rfl, rfl, hgetDc, ?_, ?_⟩
  · show memregionScan _ _ ≠ _
    rw [show k.next_memregion_idx = ((k.next_memregion_idx.toNat : Nat) : Int) from
      (Int.toNat_of_nonneg hcpos).symm]
    exact memregionScan_ne _ _ hclt
  · unfold _remove_pages
    rw [if_neg (by simp [hal])]
    dsimp only
    have hfind : (List.range PAGE_TABLE_ENTRIES).find?
        (fun i => (k.memregions.set k.next_memregion_idx.toNat base).getD i 0 &&&
          ADDR_MASK == base) = some k.next_memregion_idx.toNat := by
      apply find?_range_eq_some hclt
      · rw [hgetDc, aligned_and_ADDR_MASK hal hb32]
        simp
      · intro j hj
        rw [getD_set_ne _ _ _ _ (by omega)]
        simp only [beq_eq_false_iff_ne, ne_eq]
        exact hfresh j (by omega)
    rw [hfind]
    dsimp only
    have hflags : base &&& FLAGS_MASK = 0 := by
      rw [(by decide : FLAGS_MASK = 2 ^ 12 - 1), Nat.and_pow_two_sub_one_eq_mod]
      rwa [(by decide : PAGE_SIZE = 2 ^ 12)] at hal
    rw [hgetDc, hflags, if_pos rfl]

set_option maxRecDepth 8192 in
theorem new_pages_zero_len_witness :
    ∃ k1, _new_pages K0 0x1000000 0 = PRes.ret 0 k1 ∧
      k1.pagemap = K0.pagemap ∧
      k1.fa = K0.fa ∧
      k1.memregions = K0.memregions.set K0.next_memregion_idx.toNat 0x1000000 ∧
      k1.memregions.getD K0.next_memregion_idx.toNat 0 = 0x1000000 ∧
      k1.next_memregion_idx ≠ K0.next_memregion_idx ∧
      _remove_pages k1 0x1000000 = PRes.ret (-2) k1 := by
  apply new_pages_zero_len K0 0x1000000
  · decide
  · decide
  · simp [K0, PAGE_TABLE_ENTRIES]
  · intro i hi
    show (List.replicate PAGE_TABLE_ENTRIES 0).getD i 0 &&& ADDR_MASK ≠ 0x1000000
    rw [List.getD_eq_getElem?_getD, List.getElem?_replicate, if_pos hi]
    decide
  · decide
  · decide
  · show (List.replicate PAGE_TABLE_ENTRIES 0).getD (Int.toNat 0) 0 = 0
    rw [List.getD_eq_getElem?_getD, List.getElem?_replicate]
    decide

end X86K
